import Mathlib

/-!
Verification development for the hubble.gl export orchestration core and its
kepler.gl integration components.

The repository's export orchestration core (Keyframe Track / Timeline,
Render-Readiness Detector, Export State Machine, Frame Scheduler, Encoder
Adapter interface) is specified in spec.md; the source tree here contains the
UI integration components (`Stage` in src/unnamed/part_000,
`ExportVideoPanelPreview` in src/unnamed/part_001).  Definitions below are
either translated from those source files or, where the core itself is not in
the tree, modelled from the spec (each such definition says so in its doc
comment).  Times, values and pixel ratios are modelled as rationals.
-/

/-! ## Keyframe Track (spec §4.1) -/

/-- Modelled from the spec: a Keyframe is `{time, value, easing}` (spec §3);
the value payload is modelled as a rational, the easing as a function on the
normalized phase. -/
structure Keyframe where
  time : ℚ
  value : ℚ
  easing : ℚ → ℚ

/-- Modelled from the spec: the bracketing-pair walk of `evaluate` (spec §4.1).
Starting from keyframe `prev` with `prev.time ≤ t`, advance while the next
keyframe's time is still `≤ t` (so ties are resolved in favour of the latest
keyframe, "last write wins"); past the last keyframe the value clamps to the
last keyframe's value; otherwise blend `prev` and the next keyframe with
`prev.easing` applied to the normalized phase.  Because the walk only stops at
a strictly later next keyframe, the divide-by-zero guard of the spec is
realised by never forming a bracket with equal times. -/
def evalFrom (prev : Keyframe) : List Keyframe → ℚ → ℚ
  | [], _ => prev.value
  | k :: rest, t =>
      if k.time ≤ t then evalFrom k rest t
      else prev.value + prev.easing ((t - prev.time) / (k.time - prev.time)) * (k.value - prev.value)

/-- Modelled from the spec: `evaluate(t)` for a Keyframe Track (spec §4.1).
A zero-keyframe track fails (`InvalidTrackError`, modelled as `none`);
`t` before the first keyframe yields the first keyframe's value; otherwise
the bracketing walk `evalFrom` runs. -/
def evaluate : List Keyframe → ℚ → Option ℚ
  | [], _ => none
  | k :: rest, t => if t < k.time then some k.value else some (evalFrom k rest t)

/-! ## Render-Readiness Detector (spec §4.2, src/unnamed/part_001 lines 148-152) -/

/-- Modelled from the spec: the detector's one-shot readiness state. -/
inductive DetectorState where
  | pending : DetectorState
  | resolved : DetectorState
  deriving DecidableEq

/-- Modelled from the spec: one draw-completion event firing (spec §4.2).
`ready` is the asset predicate sampled at this draw.  A pending wait resolves
only when the predicate is true; otherwise it re-arms (stays pending) for the
next draw cycle.  A resolved one-shot stays resolved. -/
def detectorStep (ready : Bool) : DetectorState → DetectorState
  | DetectorState.pending => if ready then DetectorState.resolved else DetectorState.pending
  | DetectorState.resolved => DetectorState.resolved

/-- Modelled from the spec: detector state after `n` draw-completion events,
where `ready m` is the asset predicate observed at the `m`-th draw. -/
def runDetector (ready : ℕ → Bool) : ℕ → DetectorState
  | 0 => DetectorState.pending
  | n + 1 => detectorStep (ready n) (runDetector ready n)

/-- From src/unnamed/part_001 `_onAfterRender` (lines 148-152): the readiness
signal handed to the adapter is
`this.props.disableStaticMap || this.mapRef.current.getMap().areTilesLoaded()`. -/
def readyPredicate (disableStaticMap tilesLoaded : Bool) : Bool :=
  disableStaticMap || tilesLoaded

/-! ## Export State Machine (spec §4.3) -/

/-- Modelled from the spec: the lifecycle states (spec §4.3). -/
inductive ExportState where
  | Idle : ExportState
  | Previewing : ExportState
  | Rendering : ExportState
  | Saving : ExportState
  deriving DecidableEq

/-- Modelled from the spec: requests and internal completion signals the
state machine reacts to (spec §4.3, §6). -/
inductive Request where
  | startPreview : Request
  | stopPreview : Request
  | startRender : Request
  | startSave : Request
  | cancelReq : Request
  | framesDone : Request
  | encoderFinalized : Request
  deriving DecidableEq

/-- Modelled from the spec: a transition either succeeds into a new state or
fails with `SessionBusyError`, carrying the (unchanged) state of the already
active session — the request is not queued. -/
inductive StepResult where
  | ok : ExportState → StepResult
  | sessionBusyError : ExportState → StepResult
  deriving DecidableEq

/-- Modelled from the spec: the Export State Machine transition function
(spec §4.3).  A render/save request while `Rendering` or `Saving` fails with
`SessionBusyError` rather than queuing; explicit cancellation sends any state
to `Idle`; unspecified combinations leave the state unchanged. -/
def stepState : ExportState → Request → StepResult
  | _, Request.cancelReq => StepResult.ok ExportState.Idle
  | ExportState.Idle, Request.startPreview => StepResult.ok ExportState.Previewing
  | ExportState.Previewing, Request.stopPreview => StepResult.ok ExportState.Idle
  | ExportState.Idle, Request.startRender => StepResult.ok ExportState.Rendering
  | ExportState.Idle, Request.startSave => StepResult.ok ExportState.Saving
  | ExportState.Rendering, Request.startRender => StepResult.sessionBusyError ExportState.Rendering
  | ExportState.Rendering, Request.startSave => StepResult.sessionBusyError ExportState.Rendering
  | ExportState.Saving, Request.startRender => StepResult.sessionBusyError ExportState.Saving
  | ExportState.Saving, Request.startSave => StepResult.sessionBusyError ExportState.Saving
  | ExportState.Rendering, Request.framesDone => StepResult.ok ExportState.Saving
  | ExportState.Saving, Request.encoderFinalized => StepResult.ok ExportState.Idle
  | s, _ => StepResult.ok s

/-! ## Frame Scheduler (spec §4.4) -/

/-- Modelled from the spec: observable events of one export run, in the order
the Frame Scheduler performs them (spec §4.4 steps (1)-(5), plus listener
release, finalization and the error outcomes of §4.4/§7).
`finalize b` is the Encoder Adapter's `finalize(partial := b)`. -/
inductive SchedEvent where
  | evalTimeline : ℕ → ℚ → SchedEvent
  | applyState : ℕ → SchedEvent
  | awaitReady : ℕ → SchedEvent
  | captureFrame : ℕ → SchedEvent
  | acceptFrame : ℕ → SchedEvent
  | deregisterListener : SchedEvent
  | finalize : Bool → SchedEvent
  | emptyExportError : SchedEvent
  | coreError : SchedEvent
  deriving DecidableEq

/-- Modelled from the spec: the deterministic frame timestamp
`t_k = startTime + k / framerate` (spec §4.4). -/
def frameTime (start fr : ℚ) (k : ℕ) : ℚ := start + (k : ℚ) / fr

/-- Modelled from the spec: the per-frame protocol for frame `k`
(spec §4.4 steps (1)-(5)), fully sequential. -/
def frameBlock (start fr : ℚ) (k : ℕ) : List SchedEvent :=
  [SchedEvent.evalTimeline k (frameTime start fr k), SchedEvent.applyState k,
   SchedEvent.awaitReady k, SchedEvent.captureFrame k, SchedEvent.acceptFrame k]

/-- Modelled from the spec: the Frame Scheduler loop (spec §4.4).  At each
iteration it first checks the cancellation flag (cooperative cancellation at a
safe point between frames, spec §4.4/§5): on cancellation it deregisters the
detector's listener and signals `finalize(partial := true)`, unless zero
frames were produced, which is `EmptyExportError`.  Otherwise, while
`t_k ≤ endTime` it performs the five per-frame steps (a frame whose capture
fails — `failAt k` — aborts the whole session with a core error, spec §7,
still releasing the listener); reaching `t_k > endTime` ends the loop
normally with `finalize(partial := false)`.  `fuel` bounds the recursion and
is chosen large enough by `runScheduler` that it is never exhausted. -/
def schedLoop (start endT fr : ℚ) (cancelBefore failAt : ℕ → Bool) :
    ℕ → ℕ → List SchedEvent
  | 0, _ => []
  | fuel + 1, k =>
    if cancelBefore k then
      SchedEvent.deregisterListener ::
        (if k = 0 then [SchedEvent.emptyExportError] else [SchedEvent.finalize true])
    else if frameTime start fr k ≤ endT then
      if failAt k then
        [SchedEvent.evalTimeline k (frameTime start fr k), SchedEvent.deregisterListener,
         SchedEvent.coreError]
      else
        frameBlock start fr k ++ schedLoop start endT fr cancelBefore failAt fuel (k + 1)
    else
      [SchedEvent.deregisterListener, SchedEvent.finalize false]

/-- Modelled from the spec: the number of frames of a completed run,
`floor((endTime - startTime) * framerate) + 1` (spec §4.4/§8). -/
def totalFrames (start endT fr : ℚ) : ℕ := (⌊(endT - start) * fr⌋).toNat + 1

/-- Modelled from the spec: a full Frame Scheduler run from `k = 0`.  The fuel
`totalFrames + 1` strictly exceeds the number of loop iterations possible
while `t_k ≤ endTime`, so the loop always ends through one of its exits. -/
def runScheduler (start endT fr : ℚ) (cancelBefore failAt : ℕ → Bool) : List SchedEvent :=
  schedLoop start endT fr cancelBefore failAt (totalFrames start endT fr + 1) 0

/-- The always-false flag: a run with no cancellation request (resp. no
frame failure). -/
def constFalse : ℕ → Bool := fun _ => false

/-- The canonical sequential trace of frames `k, k+1, …, k+n-1`:
`n` per-frame blocks in increasing order. -/
def blockSeq (start fr : ℚ) : ℕ → ℕ → List SchedEvent
  | 0, _ => []
  | n + 1, k => frameBlock start fr k ++ blockSeq start fr n (k + 1)

/-- The timestamps at which the scheduler evaluated the timeline, in trace
order. -/
def evalTimes (tr : List SchedEvent) : List ℚ :=
  tr.filterMap fun e =>
    match e with
    | SchedEvent.evalTimeline _ t => some t
    | _ => none

/-- The sequence indices handed to the Encoder Adapter, in trace order. -/
def acceptedSeq (tr : List SchedEvent) : List ℕ :=
  tr.filterMap fun e =>
    match e with
    | SchedEvent.acceptFrame k => some k
    | _ => none

/-- Events relevant to the no-pipelining guarantee: timeline evaluations
(step (1)) and encoder hand-offs (step (5)). -/
def isEvalOrAccept : SchedEvent → Bool
  | SchedEvent.evalTimeline _ _ => true
  | SchedEvent.acceptFrame _ => true
  | _ => false

/-- The trace restricted to timeline evaluations and encoder hand-offs. -/
def submissionTrace (tr : List SchedEvent) : List SchedEvent :=
  tr.filter isEvalOrAccept

/-- The spec's ordering guarantee (§4.4) as a reference trace: evaluation of
frame `k` is followed by its hand-off, and only then does the evaluation of
frame `k+1` occur — strictly increasing indices, no gaps, no pipelining. -/
def submissionPattern (start fr : ℚ) : ℕ → ℕ → List SchedEvent
  | 0, _ => []
  | n + 1, k =>
      SchedEvent.evalTimeline k (frameTime start fr k) :: SchedEvent.acceptFrame k ::
        submissionPattern start fr n (k + 1)

/-- Modelled from the spec: how one scheduler event drives the Export State
Machine (spec §4.3): signalling the encoder to finalize moves
`Rendering → Saving` (all frames produced, encoder may still be flushing);
any core error sends the session to `Idle`; per-frame events leave the state
unchanged. -/
def stepOnEvent (s : ExportState) (e : SchedEvent) : ExportState :=
  match e with
  | SchedEvent.finalize _ => ExportState.Saving
  | SchedEvent.emptyExportError => ExportState.Idle
  | SchedEvent.coreError => ExportState.Idle
  | _ => s

/-- Modelled from the spec: `Saving → Idle` once the Encoder Adapter reports
the output artifact finalized (spec §4.3). -/
def encoderFinalizeStep : ExportState → ExportState
  | ExportState.Saving => ExportState.Idle
  | s => s

/-- Modelled from the spec: the state the Export State Machine ends in after
a scheduler trace, starting from `Rendering` and letting the encoder report
finalization at the end (spec §4.3). -/
def exportFinalState (tr : List SchedEvent) : ExportState :=
  encoderFinalizeStep (tr.foldl stepOnEvent ExportState.Rendering)

/-! ## ExportVideoPanelPreview (src/unnamed/part_001) -/

/-- The mapbox map object as seen by `ExportVideoPanelPreview`: its
`render`-event listener list (`map._listeners.render`, handles modelled as
naturals) and its layer id list (`map.addLayer` / `map.removeLayer`). -/
structure MapModel where
  renderListeners : List ℕ
  layers : List String
  deriving DecidableEq

/-- The props of `ExportVideoPanelPreview` relevant to its global
side effects: `resolution`, `exportVideoWidth`, `disableStaticMap`. -/
structure PreviewProps where
  resolution : ℚ × ℚ
  exportVideoWidth : ℚ
  disableStaticMap : Bool
  deriving DecidableEq

/-- The mutable environment the component touches: the global
`window.devicePixelRatio` and the mapbox map (absent until the map loads or
when the static map is disabled, mirroring the `this.mapRef.current` guard). -/
structure World where
  devicePixelRatio : ℚ
  map : Option MapModel
  deriving DecidableEq

/-- The component's own state: `memoDevicePixelRatio` (memoized in the
constructor), `mapboxLayerIds` (set by `_onMapLoad`), and its current props. -/
structure PreviewComp where
  memoDevicePixelRatio : ℚ
  mapboxLayerIds : Option (List String)
  props : PreviewProps
  deriving DecidableEq

/-- From `_setDevicePixelRatio` (part_001 lines 111-131): mutates the global
`window.devicePixelRatio`. -/
def setDevicePixelRatio (w : World) (r : ℚ) : World :=
  { w with devicePixelRatio := r }

/-- From `_resizeVideo` (part_001 lines 96-109): sets the global device pixel
ratio to `resolution[0] / exportVideoWidth` (the `map.resize()` call has no
effect on the modelled state). -/
def resizeVideo (p : PreviewProps) (w : World) : World :=
  setDevicePixelRatio w (p.resolution.1 / p.exportVideoWidth)

/-- From the constructor (part_001 lines 48-67): memoizes the current
`window.devicePixelRatio` into state, then calls `_resizeVideo`. -/
def constructPreview (p : PreviewProps) (w : World) : PreviewComp × World :=
  ({ memoDevicePixelRatio := w.devicePixelRatio, mapboxLayerIds := none, props := p },
   resizeVideo p w)

/-- From `componentDidUpdate` (part_001 lines 69-73): calls `_resizeVideo`
only when `resolution` changed (`!isEqual(prevProps.resolution,
this.props.resolution)`). -/
def didUpdate (c : PreviewComp) (p : PreviewProps) (w : World) : PreviewComp × World :=
  if c.props.resolution = p.resolution then ({ c with props := p }, w)
  else ({ c with props := p }, resizeVideo p w)

/-- A sequence of prop updates applied through `componentDidUpdate`. -/
def applyUpdates (cw : PreviewComp × World) (ps : List PreviewProps) : PreviewComp × World :=
  ps.foldl (fun cw p => didUpdate cw.1 p cw.2) cw

/-- The placeholder layer id added when there are zero visualization layers
(part_001 line 166). -/
def blankLayerId : String := "%%blank-layer"

/-- From `_onMapLoad` (part_001 lines 154-179): when there are no kepler
layers a single `%%blank-layer` is added, otherwise every kepler layer id is
added in order; the same ids are recorded in the component's
`mapboxLayerIds` state, and `_onAfterRender` is registered on the map's
`render` event (handle `h`). -/
def onMapLoad (c : PreviewComp) (keplerLayerIds : List String) (h : ℕ) (w : World) :
    PreviewComp × World :=
  match w.map with
  | none => (c, w)
  | some m =>
    let ids := if keplerLayerIds = [] then [blankLayerId] else keplerLayerIds
    ({ c with mapboxLayerIds := some ids },
     { w with
        map := some { renderListeners := m.renderListeners ++ [h],
                      layers := m.layers ++ ids } })

/-- `map.off('render', listener)` (part_001 line 85): removes one listener
registration. -/
def removeRenderListener (m : MapModel) (l : ℕ) : MapModel :=
  { m with renderListeners := m.renderListeners.erase l }

/-- `map.removeLayer(id)` (part_001 line 90). -/
def removeLayer (m : MapModel) (i : String) : MapModel :=
  { m with layers := m.layers.erase i }

/-- From `componentWillUnmount` (part_001 lines 75-94): restores the global
device pixel ratio to the memoized value; then, if the map is present,
snapshots `map._listeners.render` and removes every listed listener, and
removes every layer id recorded in `mapboxLayerIds`. -/
def willUnmount (c : PreviewComp) (w : World) : World :=
  let w1 := setDevicePixelRatio w c.memoDevicePixelRatio
  match w1.map with
  | none => w1
  | some m =>
    let snapshot := m.renderListeners
    let m1 := snapshot.foldl removeRenderListener m
    let m2 :=
      match c.mapboxLayerIds with
      | none => m1
      | some ids => ids.foldl removeLayer m1
    { w1 with map := some m2 }

/-! ## Stage / StageMapOverlay (src/unnamed/part_000) -/

/-- From `StageMapOverlay` (part_000 lines 35-48): the displayed percentage is
`Math.floor((currentTime / duration) * 100).toFixed(0)`.  JavaScript numbers
that are not real numbers (`NaN` from `undefined / duration` or `0 / 0`,
`Infinity` from `t / 0`) are modelled as `none`: in those cases the overlay
does not display a number. -/
def overlayPercent (currentTime : Option ℚ) (duration : ℚ) : Option ℤ :=
  match currentTime with
  | none => none
  | some t => if duration = 0 then none else some ⌊t / duration * 100⌋

/-- From `Stage` (part_000 lines 145-150): `StageMapOverlay` is rendered with
`rendererBusy`, `duration`, `width` and `height` — but no `currentTime` prop,
so inside the overlay `currentTime` is `undefined` (`none`). -/
def stagePercent (duration : ℚ) : Option ℤ := overlayPercent none duration

/-! ## Concrete inputs used by the witnesses -/

/-- A cancellation flag that first becomes true at the check before frame 2. -/
def cbW : ℕ → Bool := fun j => decide (2 ≤ j)

/-- A concrete two-keyframe track: `{t=0, v=0}` then `{t=10, v=100}`, identity
easing. -/
def trackW : List Keyframe := [⟨0, 0, id⟩, ⟨10, 100, id⟩]

/-- Concrete props for the preview component. -/
def propsW : PreviewProps := ⟨(640, 480), 640, false⟩

/-- A concrete world with one registered render listener and one basemap
layer. -/
def worldW : World := ⟨1, some ⟨[5], ["basemap"]⟩⟩

/-- A concrete component state that recorded the `basemap` layer id. -/
def compW : PreviewComp := ⟨1, some ["basemap"], propsW⟩

/-- A concrete world for the map-load/unmount round trip: no listeners yet,
one pre-existing basemap layer. -/
def worldW2 : World := ⟨1, some ⟨[], ["basemap"]⟩⟩

/-- A concrete component state before `_onMapLoad` ran. -/
def compW2 : PreviewComp := ⟨1, none, propsW⟩

/-- Props with the same resolution as `propsW` but a halved
`exportVideoWidth`. -/
def propsW2 : PreviewProps := ⟨(640, 480), 320, false⟩

/-- Props with a different resolution than `propsW`. -/
def propsW3 : PreviewProps := ⟨(1280, 720), 640, false⟩

/-! ## Helper lemmas -/

theorem frameTime_le_imp {start endT fr : ℚ} (hfr : 0 < fr) {k : ℕ}
    (h : frameTime start fr k ≤ endT) : k < totalFrames start endT fr := by
  have h1 : (k : ℚ) ≤ (endT - start) * fr := by
    rw [frameTime] at h
    have h0 : (k : ℚ) / fr ≤ endT - start := by linarith
    exact (div_le_iff₀ hfr).mp h0
  have h2 : (k : ℤ) ≤ ⌊(endT - start) * fr⌋ := by
    apply Int.le_floor.mpr
    push_cast
    exact h1
  unfold totalFrames
  omega

theorem frameTime_le_iff {start endT fr : ℚ} (hfr : 0 < fr) (hse : start ≤ endT) (k : ℕ) :
    frameTime start fr k ≤ endT ↔ k < totalFrames start endT fr := by
  constructor
  · exact frameTime_le_imp hfr
  · intro hk
    have hM : (0 : ℤ) ≤ ⌊(endT - start) * fr⌋ :=
      Int.floor_nonneg.mpr (mul_nonneg (sub_nonneg.mpr hse) hfr.le)
    have h2 : (k : ℤ) ≤ ⌊(endT - start) * fr⌋ := by
      unfold totalFrames at hk
      omega
    have h1 : (k : ℚ) ≤ (endT - start) * fr := by
      have := Int.le_floor.mp h2
      push_cast at this
      exact this
    have h0 : (k : ℚ) / fr ≤ endT - start := (div_le_iff₀ hfr).mpr h1
    rw [frameTime]
    linarith

theorem schedLoop_clean {start endT fr : ℚ} (hfr : 0 < fr) (hse : start ≤ endT) :
    ∀ fuel k, totalFrames start endT fr + 1 ≤ fuel + k → k ≤ totalFrames start endT fr →
      schedLoop start endT fr constFalse constFalse fuel k
        = blockSeq start fr (totalFrames start endT fr - k) k
            ++ [SchedEvent.deregisterListener, SchedEvent.finalize false] := by
  intro fuel
  induction fuel with
  | zero => intro k hfuel hk; omega
  | succ m ih =>
    intro k hfuel hk
    rw [schedLoop]
    simp only [constFalse, Bool.false_eq_true, if_false]
    by_cases hcond : frameTime start fr k ≤ endT
    · rw [if_pos hcond]
      have hklt : k < totalFrames start endT fr := frameTime_le_imp hfr hcond
      have hsub : totalFrames start endT fr - k = (totalFrames start endT fr - (k + 1)) + 1 := by
        omega
      rw [hsub, blockSeq, List.append_assoc]
      rw [ih (k + 1) (by omega) (by omega)]
    · rw [if_neg hcond]
      have hge : ¬ k < totalFrames start endT fr := fun hlt =>
        hcond ((frameTime_le_iff hfr hse k).mpr hlt)
      have hkeq : k = totalFrames start endT fr := by omega
      rw [hkeq, Nat.sub_self, blockSeq, List.nil_append]

theorem runScheduler_clean {start endT fr : ℚ} (hfr : 0 < fr) (hse : start ≤ endT) :
    runScheduler start endT fr constFalse constFalse
      = blockSeq start fr (totalFrames start endT fr) 0
          ++ [SchedEvent.deregisterListener, SchedEvent.finalize false] := by
  rw [runScheduler, schedLoop_clean hfr hse (totalFrames start endT fr + 1) 0 (by omega) (by omega),
    Nat.sub_zero]

theorem evalTimes_blockSeq (start fr : ℚ) :
    ∀ n k, evalTimes (blockSeq start fr n k) = (List.range' k n).map (frameTime start fr) := by
  intro n
  induction n with
  | zero => intro k; rfl
  | succ m ih =>
    intro k
    rw [blockSeq, List.range'_succ, List.map_cons, ← ih (k + 1)]
    simp [evalTimes, frameBlock, List.filterMap_append]

theorem acceptedSeq_blockSeq (start fr : ℚ) :
    ∀ n k, acceptedSeq (blockSeq start fr n k) = List.range' k n := by
  intro n
  induction n with
  | zero => intro k; rfl
  | succ m ih =>
    intro k
    rw [blockSeq, List.range'_succ, ← ih (k + 1)]
    simp [acceptedSeq, frameBlock, List.filterMap_append]

theorem submissionTrace_blockSeq (start fr : ℚ) :
    ∀ n k, submissionTrace (blockSeq start fr n k) = submissionPattern start fr n k := by
  intro n
  induction n with
  | zero => intro k; rfl
  | succ m ih =>
    intro k
    rw [blockSeq, submissionPattern, ← ih (k + 1)]
    simp [submissionTrace, frameBlock, List.filter_append, isEvalOrAccept]

theorem foldl_blockSeq (start fr : ℚ) :
    ∀ n k s, (blockSeq start fr n k).foldl stepOnEvent s = s := by
  intro n
  induction n with
  | zero => intro k s; rfl
  | succ m ih =>
    intro k s
    rw [blockSeq, List.foldl_append, ih (k + 1)]
    rfl

theorem acceptFrame_mem_blockSeq (start fr : ℚ) :
    ∀ n k j, SchedEvent.acceptFrame j ∈ blockSeq start fr n k → k ≤ j ∧ j < k + n := by
  intro n
  induction n with
  | zero => intro k j hj; simp [blockSeq] at hj
  | succ m ih =>
    intro k j hj
    rw [blockSeq, List.mem_append] at hj
    rcases hj with hj | hj
    · simp [frameBlock] at hj
      omega
    · have := ih (k + 1) j hj
      omega

theorem finalize_not_mem_blockSeq (start fr : ℚ) (b : Bool) :
    ∀ n k, SchedEvent.finalize b ∉ blockSeq start fr n k := by
  intro n
  induction n with
  | zero => intro k hj; simp [blockSeq] at hj
  | succ m ih =>
    intro k hj
    rw [blockSeq, List.mem_append] at hj
    rcases hj with hj | hj
    · simp [frameBlock] at hj
    · exact ih (k + 1) hj

theorem schedLoop_cancel {start endT fr : ℚ} {cb : ℕ → Bool} {m0 : ℕ}
    (hfr : 0 < fr) (hse : start ≤ endT) (hm : m0 ≤ totalFrames start endT fr)
    (hb : ∀ j, j < m0 → cb j = false) (ha : cb m0 = true) :
    ∀ fuel k, totalFrames start endT fr + 1 ≤ fuel + k → k ≤ m0 →
      schedLoop start endT fr cb constFalse fuel k
        = blockSeq start fr (m0 - k) k
            ++ SchedEvent.deregisterListener ::
                (if m0 = 0 then [SchedEvent.emptyExportError] else [SchedEvent.finalize true]) := by
  intro fuel
  induction fuel with
  | zero => intro k hfuel hk; omega
  | succ m ih =>
    intro k hfuel hk
    rw [schedLoop]
    by_cases hkm : k = m0
    · subst hkm
      rw [if_pos ha, Nat.sub_self, blockSeq, List.nil_append]
    · have hklt : k < m0 := by omega
      rw [hb k hklt, if_neg (by simp)]
      have hcond : frameTime start fr k ≤ endT :=
        (frameTime_le_iff hfr hse k).mpr (by omega)
      rw [if_pos hcond]
      simp only [constFalse, Bool.false_eq_true, if_false]
      have hsub : m0 - k = (m0 - (k + 1)) + 1 := by omega
      rw [hsub, blockSeq, List.append_assoc, ih (k + 1) (by omega) (by omega)]

theorem runScheduler_cancel {start endT fr : ℚ} {cb : ℕ → Bool} {m0 : ℕ}
    (hfr : 0 < fr) (hse : start ≤ endT) (hm : m0 ≤ totalFrames start endT fr)
    (hb : ∀ j, j < m0 → cb j = false) (ha : cb m0 = true) :
    runScheduler start endT fr cb constFalse
      = blockSeq start fr m0 0
          ++ SchedEvent.deregisterListener ::
              (if m0 = 0 then [SchedEvent.emptyExportError] else [SchedEvent.finalize true]) := by
  rw [runScheduler,
    schedLoop_cancel hfr hse hm hb ha (totalFrames start endT fr + 1) 0 (by omega) (by omega),
    Nat.sub_zero]

theorem dereg_mem_schedLoop {start endT fr : ℚ} (hfr : 0 < fr) (cb fa : ℕ → Bool) :
    ∀ fuel k, totalFrames start endT fr + 1 ≤ fuel + k → k ≤ totalFrames start endT fr →
      SchedEvent.deregisterListener ∈ schedLoop start endT fr cb fa fuel k := by
  intro fuel
  induction fuel with
  | zero => intro k hfuel hk; omega
  | succ m ih =>
    intro k hfuel hk
    rw [schedLoop]
    by_cases hc : cb k
    · rw [if_pos hc]
      exact List.mem_cons_self _ _
    · rw [if_neg (by simp [hc])]
      by_cases hcond : frameTime start fr k ≤ endT
      · rw [if_pos hcond]
        have hklt : k < totalFrames start endT fr := frameTime_le_imp hfr hcond
        by_cases hf : fa k
        · rw [if_pos hf]
          simp
        · rw [if_neg (by simp [hf])]
          exact List.mem_append_right _ (ih (k + 1) (by omega) (by omega))
      · rw [if_neg hcond]
        simp

theorem foldl_erase_self : ∀ l : List ℕ, l.foldl (fun acc x => acc.erase x) l = [] := by
  intro l
  induction l with
  | nil => rfl
  | cons x xs ih =>
    show List.foldl _ ((x :: xs).erase x) xs = []
    rw [List.erase_cons_head]
    exact ih

theorem foldl_removeRenderListener (snapshot : List ℕ) :
    ∀ m : MapModel,
      (snapshot.foldl removeRenderListener m).renderListeners
          = snapshot.foldl (fun acc x => acc.erase x) m.renderListeners
        ∧ (snapshot.foldl removeRenderListener m).layers = m.layers := by
  induction snapshot with
  | nil => intro m; exact ⟨rfl, rfl⟩
  | cons x xs ih =>
    intro m
    exact ih (removeRenderListener m x)

theorem foldl_removeLayer (ids : List String) :
    ∀ m : MapModel,
      (ids.foldl removeLayer m).layers = ids.foldl (fun acc x => acc.erase x) m.layers
        ∧ (ids.foldl removeLayer m).renderListeners = m.renderListeners := by
  induction ids with
  | nil => intro m; exact ⟨rfl, rfl⟩
  | cons x xs ih =>
    intro m
    exact ih (removeLayer m x)

theorem foldl_erase_append_self :
    ∀ (ids base : List String), ids.Nodup → (∀ i ∈ ids, i ∉ base) →
      ids.foldl (fun acc x => acc.erase x) (base ++ ids) = base := by
  intro ids
  induction ids with
  | nil => intro base _ _; simp
  | cons x xs ih =>
    intro base hnd hfresh
    show List.foldl _ ((base ++ x :: xs).erase x) xs = base
    rw [List.erase_append_right _ (hfresh x (List.mem_cons_self x xs)),
      List.erase_cons_head]
    exact ih base (List.Nodup.of_cons hnd) (fun i hi => hfresh i (List.mem_cons_of_mem x hi))

theorem evalFrom_all_le :
    ∀ (ks : List Keyframe) (prev : Keyframe) (t : ℚ), (∀ k ∈ ks, k.time ≤ t) →
      evalFrom prev ks t = (ks.getLastD prev).value := by
  intro ks
  induction ks with
  | nil => intro prev t _; rfl
  | cons k rest ih =>
    intro prev t hle
    rw [evalFrom, if_pos (hle k (List.mem_cons_self k rest)), List.getLastD_cons]
    exact ih k t (fun k2 hk2 => hle k2 (List.mem_cons_of_mem k hk2))

theorem time_le_getLastD :
    ∀ (ks : List Keyframe) (prev : Keyframe),
      List.Sorted (fun a b : Keyframe => a.time ≤ b.time) (prev :: ks) →
      ∀ k ∈ prev :: ks, k.time ≤ (ks.getLastD prev).time := by
  intro ks
  induction ks with
  | nil =>
    intro prev _ k hk
    rw [List.mem_singleton] at hk
    rw [hk]
    exact le_refl _
  | cons k1 rest ih =>
    intro prev hsort k hk
    rw [List.getLastD_cons]
    rcases List.mem_cons.mp hk with hk | hk
    · rw [hk]
      exact (List.sorted_cons.mp hsort).1 _ (List.getLastD_mem_cons rest k1)
    · exact ih k1 (List.sorted_cons.mp hsort).2 k hk

theorem applyUpdates_memo :
    ∀ (ps : List PreviewProps) (cw : PreviewComp × World),
      (applyUpdates cw ps).1.memoDevicePixelRatio = cw.1.memoDevicePixelRatio := by
  intro ps
  induction ps with
  | nil => intro cw; rfl
  | cons p rest ih =>
    intro cw
    show (applyUpdates (didUpdate cw.1 p cw.2) rest).1.memoDevicePixelRatio = _
    rw [ih (didUpdate cw.1 p cw.2)]
    rw [didUpdate]
    by_cases h : cw.1.props.resolution = p.resolution
    · rw [if_pos h]
    · rw [if_neg h]

/-! ## Claim theorems -/

/-- C1: for a non-cancelled, non-failing run with `0 < framerate` and
`startTime ≤ endTime`, the Frame Scheduler visits exactly the timestamps
`t_k = startTime + k / framerate` for `k = 0, …, totalFrames - 1`, where
`totalFrames` equals `floor((endTime - startTime) * framerate) + 1`, a
timestamp is visited exactly when `t_k ≤ endTime`, exactly `totalFrames`
frames are handed to the encoder, and the session ends in `Idle`; in
particular the run `startTime = 0`, `endTime = 1`, `framerate = 30` submits
exactly 31 frames and ends in `Idle`. -/
theorem scheduler_frame_count (start endT fr : ℚ) (hfr : 0 < fr) (hse : start ≤ endT) :
    ((totalFrames start endT fr : ℤ) = ⌊(endT - start) * fr⌋ + 1)
    ∧ (∀ k : ℕ, frameTime start fr k ≤ endT ↔ k < totalFrames start endT fr)
    ∧ evalTimes (runScheduler start endT fr constFalse constFalse)
        = (List.range (totalFrames start endT fr)).map (frameTime start fr)
    ∧ (acceptedSeq (runScheduler start endT fr constFalse constFalse)).length
        = totalFrames start endT fr
    ∧ exportFinalState (runScheduler start endT fr constFalse constFalse) = ExportState.Idle
    ∧ ((acceptedSeq (runScheduler 0 1 30 constFalse constFalse)).length = 31
        ∧ exportFinalState (runScheduler 0 1 30 constFalse constFalse) = ExportState.Idle) := by
  have hM : (0 : ℤ) ≤ ⌊(endT - start) * fr⌋ :=
    Int.floor_nonneg.mpr (mul_nonneg (sub_nonneg.mpr hse) hfr.le)
  have h30 : (0 : ℚ) < 30 := by norm_num
  have h01 : (0 : ℚ) ≤ 1 := by norm_num
  have htf : totalFrames 0 1 30 = 31 := by
    unfold totalFrames
    norm_num
    rfl
  refine ⟨?_, frameTime_le_iff hfr hse, ?_, ?_, ?_, ?_, ?_⟩
  · unfold totalFrames
    omega
  · rw [runScheduler_clean hfr hse]
    have hnil : evalTimes
        (blockSeq start fr (totalFrames start endT fr) 0
          ++ [SchedEvent.deregisterListener, SchedEvent.finalize false])
        = evalTimes (blockSeq start fr (totalFrames start endT fr) 0) := by
      simp [evalTimes, List.filterMap_append]
    rw [hnil, evalTimes_blockSeq, List.range_eq_range']
  · rw [runScheduler_clean hfr hse]
    have hnil : acceptedSeq
        (blockSeq start fr (totalFrames start endT fr) 0
          ++ [SchedEvent.deregisterListener, SchedEvent.finalize false])
        = acceptedSeq (blockSeq start fr (totalFrames start endT fr) 0) := by
      simp [acceptedSeq, List.filterMap_append]
    rw [hnil, acceptedSeq_blockSeq]
    simp
  · rw [exportFinalState, runScheduler_clean hfr hse, List.foldl_append,
      foldl_blockSeq]
    rfl
  · rw [runScheduler_clean h30 h01]
    have hnil : acceptedSeq
        (blockSeq 0 30 (totalFrames 0 1 30) 0
          ++ [SchedEvent.deregisterListener, SchedEvent.finalize false])
        = acceptedSeq (blockSeq 0 30 (totalFrames 0 1 30) 0) := by
      simp [acceptedSeq, List.filterMap_append]
    rw [hnil, acceptedSeq_blockSeq, htf]
    simp
  · rw [exportFinalState, runScheduler_clean h30 h01, List.foldl_append,
      foldl_blockSeq]
    rfl

/-- C1 witness: the concrete scenario of the claim — `startTime = 0`,
`endTime = 1`, `framerate = 30`, no cancellation, no failures — submits
exactly 31 frames and the session ends in `Idle`. -/
theorem scheduler_frame_count_witness :
    (acceptedSeq (runScheduler 0 1 30 constFalse constFalse)).length = 31
      ∧ exportFinalState (runScheduler 0 1 30 constFalse constFalse) = ExportState.Idle :=
  (scheduler_frame_count 0 1 30 (by norm_num) (by norm_num)).2.2.2.2.2

/-- C2: for a completed run (no cancellation, no failures, `0 < framerate`,
`startTime ≤ endTime`), the sequence indices handed to the Encoder Adapter
are exactly `0, 1, …, totalFrames - 1` in order — strictly increasing with no
gaps — and the trace restricted to timeline evaluations (step (1)) and
encoder hand-offs (step (5)) is exactly the fully sequential pattern
`eval 0, accept 0, eval 1, accept 1, …`: the scheduler never begins
evaluating the timeline for frame `k+1` before the encoder hand-off of frame
`k` has happened, with at most one frame in flight. -/
theorem scheduler_no_pipelining (start endT fr : ℚ) (hfr : 0 < fr) (hse : start ≤ endT) :
    acceptedSeq (runScheduler start endT fr constFalse constFalse)
      = List.range (totalFrames start endT fr)
    ∧ submissionTrace (runScheduler start endT fr constFalse constFalse)
        = submissionPattern start fr (totalFrames start endT fr) 0 := by
  constructor
  · rw [runScheduler_clean hfr hse]
    have hnil : acceptedSeq
        (blockSeq start fr (totalFrames start endT fr) 0
          ++ [SchedEvent.deregisterListener, SchedEvent.finalize false])
        = acceptedSeq (blockSeq start fr (totalFrames start endT fr) 0) := by
      simp [acceptedSeq, List.filterMap_append]
    rw [hnil, acceptedSeq_blockSeq, List.range_eq_range']
  · rw [runScheduler_clean hfr hse]
    have hnil : submissionTrace
        (blockSeq start fr (totalFrames start endT fr) 0
          ++ [SchedEvent.deregisterListener, SchedEvent.finalize false])
        = submissionTrace (blockSeq start fr (totalFrames start endT fr) 0) := by
      simp [submissionTrace, List.filter_append, isEvalOrAccept]
    rw [hnil, submissionTrace_blockSeq]

/-- C2 witness: the one-frame run `startTime = endTime = 0`, `framerate = 30`
hands exactly the index sequence `[0]` to the encoder, in the sequential
`eval, accept` pattern. -/
theorem scheduler_no_pipelining_witness :
    acceptedSeq (runScheduler 0 0 30 constFalse constFalse) = List.range 1
      ∧ submissionTrace (runScheduler 0 0 30 constFalse constFalse)
          = submissionPattern 0 30 1 0 := by
  have ht : totalFrames 0 0 30 = 1 := by
    unfold totalFrames
    norm_num
  have h := scheduler_no_pipelining 0 0 30 (by norm_num) (by norm_num)
  rw [ht] at h
  exact h

theorem coreError_not_mem_blockSeq (start fr : ℚ) :
    ∀ n k, SchedEvent.coreError ∉ blockSeq start fr n k := by
  intro n
  induction n with
  | zero => intro k hj; simp [blockSeq] at hj
  | succ m ih =>
    intro k hj
    rcases List.mem_append.mp hj with hj | hj
    · simp [frameBlock] at hj
    · exact ih (k + 1) hj

/-- C4: for a run cancelled at the safe-point check before frame `m0`
(the first check at which the cancellation flag is observed true, reachable
because `m0 ≤ totalFrames`), the scheduler deregisters the detector's
listener; no `acceptFrame` with index `≥ m0` ever occurs (nothing is handed
to the encoder after cancellation is observed); when at least one frame was
produced the Encoder Adapter is told `finalize(partial := true)` and neither
a complete finalize nor a core error occurs; when zero frames were produced
the outcome is `EmptyExportError` instead. -/
theorem scheduler_cancellation (start endT fr : ℚ) (cb : ℕ → Bool) (m0 : ℕ)
    (hfr : 0 < fr) (hse : start ≤ endT) (hm : m0 ≤ totalFrames start endT fr)
    (hb : ∀ j, j < m0 → cb j = false) (ha : cb m0 = true) :
    SchedEvent.deregisterListener ∈ runScheduler start endT fr cb constFalse
    ∧ (∀ j, SchedEvent.acceptFrame j ∈ runScheduler start endT fr cb constFalse → j < m0)
    ∧ (1 ≤ m0 →
        SchedEvent.finalize true ∈ runScheduler start endT fr cb constFalse
        ∧ SchedEvent.finalize false ∉ runScheduler start endT fr cb constFalse
        ∧ SchedEvent.coreError ∉ runScheduler start endT fr cb constFalse)
    ∧ (m0 = 0 → SchedEvent.emptyExportError ∈ runScheduler start endT fr cb constFalse) := by
  rw [runScheduler_cancel hfr hse hm hb ha]
  refine ⟨?_, ?_, ?_, ?_⟩
  · exact List.mem_append_right _ (List.mem_cons_self _ _)
  · intro j hj
    rcases List.mem_append.mp hj with hj | hj
    · have := acceptFrame_mem_blockSeq start fr m0 0 j hj
      omega
    · by_cases hm0 : m0 = 0 <;> simp [hm0] at hj
  · intro h1
    have hne : ¬ m0 = 0 := by omega
    refine ⟨?_, ?_, ?_⟩
    · exact List.mem_append_right _ (by simp [hne])
    · intro hmem
      rcases List.mem_append.mp hmem with hmem | hmem
      · exact finalize_not_mem_blockSeq start fr false m0 0 hmem
      · simp [hne] at hmem
    · intro hmem
      rcases List.mem_append.mp hmem with hmem | hmem
      · exact coreError_not_mem_blockSeq start fr m0 0 hmem
      · simp [hne] at hmem
  · intro h0
    subst h0
    exact List.mem_append_right _ (by simp)

/-- C4 witness: a run `startTime = 0`, `endTime = 1`, `framerate = 30` whose
cancellation flag first becomes true at the check before frame 2 releases the
listener and finalizes with a partial result. -/
theorem scheduler_cancellation_witness :
    SchedEvent.deregisterListener ∈ runScheduler 0 1 30 cbW constFalse
      ∧ SchedEvent.finalize true ∈ runScheduler 0 1 30 cbW constFalse := by
  have htf : totalFrames 0 1 30 = 31 := by
    unfold totalFrames
    norm_num
    rfl
  have h := scheduler_cancellation 0 1 30 cbW 2 (by norm_num) (by norm_num)
    (by omega) (by decide) (by decide)
  exact ⟨h.1, (h.2.2.1 (by norm_num)).1⟩

/-- C7: the draw-completion listener never survives a render session.  First
conjunct (scheduler, spec §4.4/§7): on every exit path of a run — normal
completion, cancellation at any frame, or a core error at any frame — the
scheduler emits `deregisterListener`.  Second conjunct (teardown,
src/unnamed/part_001 `componentWillUnmount` lines 75-94): after unmounting,
whatever map is left has an empty `render`-listener list. -/
theorem listener_always_released :
    (∀ (start endT fr : ℚ) (cb fa : ℕ → Bool), 0 < fr →
        SchedEvent.deregisterListener ∈ runScheduler start endT fr cb fa)
    ∧ (∀ (c : PreviewComp) (w : World) (m : MapModel),
        (willUnmount c w).map = some m → m.renderListeners = []) := by
  constructor
  · intro start endT fr cb fa hfr
    exact dereg_mem_schedLoop hfr cb fa (totalFrames start endT fr + 1) 0 (by omega) (by omega)
  · intro c w m hm
    obtain ⟨dpr, wmap⟩ := w
    cases wmap with
    | none => simp [willUnmount, setDevicePixelRatio] at hm
    | some m0 =>
      simp only [willUnmount, setDevicePixelRatio, Option.some.injEq] at hm
      have h2 : ((m0.renderListeners).foldl removeRenderListener m0).renderListeners = [] := by
        rw [(foldl_removeRenderListener m0.renderListeners m0).1, foldl_erase_self]
      cases hc : c.mapboxLayerIds with
      | none =>
        rw [hc] at hm
        rw [← hm]
        exact h2
      | some ids =>
        rw [hc] at hm
        rw [← hm,
          (foldl_removeLayer ids ((m0.renderListeners).foldl removeRenderListener m0)).2]
        exact h2

/-- C7 witness: a concrete run (`startTime = 0`, `endTime = 0`,
`framerate = 30`) releases the listener, and unmounting the concrete
component leaves the concrete map with no `render` listeners. -/
theorem listener_always_released_witness :
    SchedEvent.deregisterListener ∈ runScheduler 0 0 30 constFalse constFalse
      ∧ (⟨[], []⟩ : MapModel).renderListeners = [] :=
  ⟨listener_always_released.1 0 0 30 constFalse constFalse (by norm_num),
   listener_always_released.2 compW worldW ⟨[], []⟩ rfl⟩

/-- C3: the Render-Readiness Detector never resolves while assets are
unsettled: a resolved detector implies some draw fired with the asset
predicate true; if every draw so far fired with the predicate false the
detector is still pending (it re-arms each time instead of resolving); and
with no tile backend (`disableStaticMap = true`) the predicate
`disableStaticMap || areTilesLoaded()` is trivially true, so the detector
resolves after a single draw completion. -/
theorem detector_never_resolves_unsettled :
    (∀ (ready : ℕ → Bool) (n : ℕ), runDetector ready n = DetectorState.resolved →
        ∃ m, m < n ∧ ready m = true)
    ∧ (∀ (ready : ℕ → Bool) (n : ℕ), (∀ m, m < n → ready m = false) →
        runDetector ready n = DetectorState.pending)
    ∧ (∀ tiles : ℕ → Bool,
        runDetector (fun n => readyPredicate true (tiles n)) 1 = DetectorState.resolved) := by
  refine ⟨?_, ?_, ?_⟩
  · intro ready n
    induction n with
    | zero => intro h; exact absurd h (by simp [runDetector])
    | succ n ih =>
      intro h
      rw [runDetector] at h
      cases hprev : runDetector ready n with
      | resolved =>
        obtain ⟨m, hm, hr⟩ := ih hprev
        exact ⟨m, by omega, hr⟩
      | pending =>
        rw [hprev, detectorStep] at h
        by_cases hr : ready n
        · exact ⟨n, by omega, hr⟩
        · rw [if_neg (by simp [hr])] at h
          exact absurd h (by simp)
  · intro ready n
    induction n with
    | zero => intro _; rfl
    | succ n ih =>
      intro h
      rw [runDetector, ih (fun m hm => h m (by omega)), detectorStep,
        if_neg (by simp [h n (by omega)])]
  · intro tiles
    simp [runDetector, detectorStep, readyPredicate]

/-- C3 witness: with the tile predicate constantly false, no draw ever
resolves the detector (three unready draws leave it pending), while with the
static map disabled the detector resolves after one draw. -/
theorem detector_never_resolves_unsettled_witness :
    runDetector constFalse 3 = DetectorState.pending
      ∧ runDetector (fun n => readyPredicate true (constFalse n)) 1 = DetectorState.resolved :=
  ⟨detector_never_resolves_unsettled.2.1 constFalse 3 (fun _ _ => rfl),
   detector_never_resolves_unsettled.2.2 constFalse⟩

/-- C5: a render or save request issued while the Export State Machine is in
`Rendering` or `Saving` fails with `SessionBusyError` and carries the active
session's state unchanged — it is not queued (no transition occurs). -/
theorem session_busy_rejects_concurrent :
    stepState ExportState.Rendering Request.startRender
        = StepResult.sessionBusyError ExportState.Rendering
    ∧ stepState ExportState.Rendering Request.startSave
        = StepResult.sessionBusyError ExportState.Rendering
    ∧ stepState ExportState.Saving Request.startRender
        = StepResult.sessionBusyError ExportState.Saving
    ∧ stepState ExportState.Saving Request.startSave
        = StepResult.sessionBusyError ExportState.Saving :=
  ⟨rfl, rfl, rfl, rfl⟩

/-- C6: for a time-ordered track with at least one keyframe, evaluation at
any `t` outside `[first.time, last.time]` clamps to the nearest boundary
keyframe's value — `t` strictly before the first keyframe yields the first
value, `t` strictly after the last yields the last value — and in particular
evaluation is constant beyond the boundary:
`evaluate(last.time + 100) = evaluate(last.time)`. -/
theorem keyframes_clamp (k0 : Keyframe) (ks : List Keyframe)
    (hsort : List.Sorted (fun a b : Keyframe => a.time ≤ b.time) (k0 :: ks)) :
    (∀ t, t < k0.time → evaluate (k0 :: ks) t = some k0.value)
    ∧ (∀ t, (ks.getLastD k0).time < t →
        evaluate (k0 :: ks) t = some (ks.getLastD k0).value)
    ∧ evaluate (k0 :: ks) ((ks.getLastD k0).time + 100)
        = evaluate (k0 :: ks) (ks.getLastD k0).time := by
  have hbound := time_le_getLastD ks k0 hsort
  have hafter : ∀ t, (ks.getLastD k0).time ≤ t →
      evaluate (k0 :: ks) t = some (ks.getLastD k0).value := by
    intro t ht
    have hk0 : ¬ t < k0.time :=
      not_lt.mpr (le_trans (hbound k0 (List.mem_cons_self k0 ks)) ht)
    rw [evaluate, if_neg hk0,
      evalFrom_all_le ks k0 t (fun k hk => le_trans (hbound k (List.mem_cons_of_mem k0 hk)) ht)]
  refine ⟨?_, ?_, ?_⟩
  · intro t ht
    rw [evaluate, if_pos ht]
  · intro t ht
    exact hafter t ht.le
  · rw [hafter _ (le_refl _), hafter _ (by linarith)]

/-- C6 witness: the two-keyframe track `{t=0, v=0}, {t=10, v=100}` clamps:
evaluation at `10 + 100` equals evaluation at `10`, and evaluation at `-5`
(before the first keyframe) yields the first value `0`. -/
theorem keyframes_clamp_witness :
    evaluate trackW ((10 : ℚ) + 100) = evaluate trackW 10
      ∧ evaluate trackW (-5) = some 0 := by
  have h := keyframes_clamp ⟨0, 0, id⟩ [⟨10, 100, id⟩]
    (by simp [List.sorted_cons])
  exact ⟨h.2.2, h.1 (-5) (by norm_num)⟩

/-- C8: evaluation of the overlay percentage at the failing call site.
`Stage` (part_000 lines 145-150) renders `StageMapOverlay` without a
`currentTime` prop, so the overlay computes
`Math.floor((undefined / duration) * 100).toFixed(0)`, which is `NaN` — not
a defined number between 0 and 100 — for every duration (first two
conjuncts).  The overlay component itself would compute
`floor(100 * currentTime / duration)` had the prop been passed (third
conjunct: 250/1000 gives 25%). -/
theorem stage_overlay_percent_undefined :
    stagePercent 1000 = none
    ∧ (∀ d : ℚ, stagePercent d = none)
    ∧ overlayPercent (some 250) 1000 = some 25 := by
  refine ⟨rfl, fun d => rfl, ?_⟩
  show (if (1000 : ℚ) = 0 then none else some ⌊(250 : ℚ) / 1000 * 100⌋) = some 25
  rw [if_neg (by norm_num)]
  norm_num

/-- C9 counterexample: construct the preview with
`resolution = [640, 480], exportVideoWidth = 640`, then update the props to
`exportVideoWidth = 320` with the resolution unchanged.  `componentDidUpdate`
does not re-apply the ratio (it only does so when `resolution` changes), so
while mounted with props `propsW2` the global `devicePixelRatio` is `1`, not
`propsW2.resolution[0] / propsW2.exportVideoWidth = 2` — the claimed
invariant fails. -/
theorem dpr_invariant_counterexample :
    (didUpdate (constructPreview propsW ⟨2, none⟩).1 propsW2
        (constructPreview propsW ⟨2, none⟩).2).1.props = propsW2
    ∧ (didUpdate (constructPreview propsW ⟨2, none⟩).1 propsW2
          (constructPreview propsW ⟨2, none⟩).2).2.devicePixelRatio
        ≠ propsW2.resolution.1 / propsW2.exportVideoWidth := by
  constructor
  · rfl
  · show (didUpdate (constructPreview propsW ⟨2, none⟩).1 propsW2
        (constructPreview propsW ⟨2, none⟩).2).2.devicePixelRatio
      ≠ propsW2.resolution.1 / propsW2.exportVideoWidth
    rw [didUpdate, if_pos (show (constructPreview propsW ⟨2, none⟩).1.props.resolution
      = propsW2.resolution from rfl)]
    show (640 : ℚ) / 640 ≠ 640 / 320
    norm_num

theorem willUnmount_dpr (c : PreviewComp) (w : World) :
    (willUnmount c w).devicePixelRatio = c.memoDevicePixelRatio := by
  obtain ⟨dpr, wmap⟩ := w
  cases wmap with
  | none => rfl
  | some m => rfl

/-- C9 (amended): the global `devicePixelRatio` equals
`resolution[0] / exportVideoWidth` as of construction and is re-applied with
the new props whenever `resolution` changes; an update that leaves
`resolution` unchanged does not touch the environment (so the equality can go
stale if only `exportVideoWidth` changes); and unmounting — after any
sequence of prop updates — restores the global setting exactly to the value
memoized at construction, leaving the environment unchanged overall. -/
theorem dpr_lifecycle :
    (∀ (p : PreviewProps) (w : World),
        (constructPreview p w).2.devicePixelRatio = p.resolution.1 / p.exportVideoWidth)
    ∧ (∀ (c : PreviewComp) (p : PreviewProps) (w : World), c.props.resolution ≠ p.resolution →
        (didUpdate c p w).2.devicePixelRatio = p.resolution.1 / p.exportVideoWidth)
    ∧ (∀ (c : PreviewComp) (p : PreviewProps) (w : World), c.props.resolution = p.resolution →
        (didUpdate c p w).2 = w)
    ∧ (∀ (p : PreviewProps) (w : World) (ps : List PreviewProps) (w2 : World),
        (willUnmount (applyUpdates (constructPreview p w) ps).1 w2).devicePixelRatio
          = w.devicePixelRatio) := by
  refine ⟨fun p w => rfl, ?_, ?_, ?_⟩
  · intro c p w hne
    rw [didUpdate, if_neg hne]
    rfl
  · intro c p w heq
    rw [didUpdate, if_pos heq]
  · intro p w ps w2
    rw [willUnmount_dpr, applyUpdates_memo]
    rfl

/-- C9 witness: constructing with `propsW` over a world whose ratio is 2 sets
the ratio to `640/640`; updating to the different resolution of `propsW3`
re-applies it; updating to `propsW2` (same resolution) leaves the world
untouched; and unmounting after the `propsW2` update restores the ratio to
the original 2. -/
theorem dpr_lifecycle_witness :
    (constructPreview propsW ⟨2, none⟩).2.devicePixelRatio
        = propsW.resolution.1 / propsW.exportVideoWidth
    ∧ (didUpdate (constructPreview propsW ⟨2, none⟩).1 propsW3
          (constructPreview propsW ⟨2, none⟩).2).2.devicePixelRatio
        = propsW3.resolution.1 / propsW3.exportVideoWidth
    ∧ (didUpdate (constructPreview propsW ⟨2, none⟩).1 propsW2
          (constructPreview propsW ⟨2, none⟩).2).2
        = (constructPreview propsW ⟨2, none⟩).2
    ∧ (willUnmount (applyUpdates (constructPreview propsW ⟨2, none⟩) [propsW2]).1
          (applyUpdates (constructPreview propsW ⟨2, none⟩) [propsW2]).2).devicePixelRatio
        = 2 :=
  ⟨dpr_lifecycle.1 propsW ⟨2, none⟩,
   dpr_lifecycle.2.1 _ propsW3 _ (by
     show ¬ ((640 : ℚ), (480 : ℚ)) = ((1280 : ℚ), (720 : ℚ))
     simp),
   dpr_lifecycle.2.2.1 _ propsW2 _ rfl,
   dpr_lifecycle.2.2.2 propsW ⟨2, none⟩ [propsW2] _⟩

/-- C10: every layer id `_onMapLoad` adds to the map — the kepler layer ids,
or the single `%%blank-layer` placeholder when there are zero visualization
layers — is recorded in the component's `mapboxLayerIds` state, and on
unmount exactly the recorded ids are removed again (the recorded ids are
distinct and not already present on the map), so the map's layer list returns
to what it was before the load: no layer added by this component outlives
it. -/
theorem layer_ids_cleanup (c : PreviewComp) (keplerIds : List String) (h : ℕ)
    (m : MapModel) (w : World) (hmap : w.map = some m)
    (hnodup : (if keplerIds = [] then [blankLayerId] else keplerIds).Nodup)
    (hfresh : ∀ i ∈ (if keplerIds = [] then [blankLayerId] else keplerIds), i ∉ m.layers) :
    (onMapLoad c keplerIds h w).1.mapboxLayerIds
        = some (if keplerIds = [] then [blankLayerId] else keplerIds)
    ∧ (keplerIds = [] → (onMapLoad c keplerIds h w).1.mapboxLayerIds = some [blankLayerId])
    ∧ ∃ m2, (willUnmount (onMapLoad c keplerIds h w).1 (onMapLoad c keplerIds h w).2).map
          = some m2
        ∧ m2.layers = m.layers := by
  obtain ⟨dpr, wmap⟩ := w
  rw [show wmap = some m from hmap]
  refine ⟨rfl, ?_, ?_⟩
  · intro he
    subst he
    rfl
  · refine ⟨_, rfl, ?_⟩
    have hlist := foldl_removeRenderListener (m.renderListeners ++ [h])
      ⟨m.renderListeners ++ [h], m.layers ++ (if keplerIds = [] then [blankLayerId] else keplerIds)⟩
    have hlay := foldl_removeLayer (if keplerIds = [] then [blankLayerId] else keplerIds)
      ((m.renderListeners ++ [h]).foldl removeRenderListener
        ⟨m.renderListeners ++ [h], m.layers ++ (if keplerIds = [] then [blankLayerId] else keplerIds)⟩)
    show (List.foldl removeLayer
        ((m.renderListeners ++ [h]).foldl removeRenderListener
          ⟨m.renderListeners ++ [h],
            m.layers ++ (if keplerIds = [] then [blankLayerId] else keplerIds)⟩)
        (if keplerIds = [] then [blankLayerId] else keplerIds)).layers = m.layers
    rw [hlay.1, hlist.2]
    exact foldl_erase_append_self _ m.layers hnodup hfresh

/-- C10 witness: with zero kepler layers, loading the concrete map records
exactly `['%%blank-layer']`, and the unmounted map's layer list is back to
the pre-existing `['basemap']`. -/
theorem layer_ids_cleanup_witness :
    (onMapLoad compW2 [] 7 worldW2).1.mapboxLayerIds = some [blankLayerId]
      ∧ ∃ m2, (willUnmount (onMapLoad compW2 [] 7 worldW2).1
            (onMapLoad compW2 [] 7 worldW2).2).map = some m2
          ∧ m2.layers = ["basemap"] :=
  ⟨(layer_ids_cleanup compW2 [] 7 ⟨[], ["basemap"]⟩ worldW2 rfl (by decide) (by decide)).2.1 rfl,
   (layer_ids_cleanup compW2 [] 7 ⟨[], ["basemap"]⟩ worldW2 rfl (by decide) (by decide)).2.2⟩
